import Mathlib

/-!
Verification of the distributed world synchronization core of
`noita-proxy/src/net/world.rs`: the per-chunk authority state machine,
host-side request handling, priority preemption, the pull-transfer protocol,
the liveness pass and the explosion raycast walk.

The external pixel library (`world_model`) is outside the scope of the design
and is modelled abstractly: a chunk payload is a total pixel map, a world
model is an association list of chunk payloads together with an abstract
delta tracker.  Machine integers that are only compared or moved around
(priorities `u8`, update counters `u64`) are modelled as `Nat`; signed world
and chunk coordinates as `Int` (no arithmetic here can overflow `i32` for the
coordinate magnitudes the proxy produces).  Hash maps and hash sets are
modelled as association lists and lists with set-like insertion.
-/

namespace NoitaWorld

abbrev PeerId := Nat

abbrev ChunkCoord := Int × Int

def CHUNK_SIZE : Nat := 128

structure Pixel where
  material : Nat
deriving DecidableEq

/-- Encoded chunk payload of the external library, modelled as the full pixel
content of the chunk (the encoding round-trips exactly per the design). -/
structure ChunkData where
  pixelAt : Nat → Pixel

/-- Working pixel buffer of the external library. -/
structure Chunk where
  pixelAt : Nat → Pixel

def Chunk.default : Chunk :=
  ⟨fun _ => ⟨0⟩⟩

/-- Applying an encoded chunk onto a working buffer overwrites it with the
encoded content. -/
def ChunkData.apply_to_chunk (d : ChunkData) (_c : Chunk) : Chunk :=
  ⟨d.pixelAt⟩

def Chunk.pixel (c : Chunk) (i : Nat) : Pixel :=
  c.pixelAt i

/-- Chunk delta of the external library: it names the chunk it belongs to and
patches the stored payload of that chunk. -/
structure ChunkDelta where
  chunk_coord : ChunkCoord
  patch : Option ChunkData → ChunkData

/-- Association list lookup, the model of hash map `get`. -/
def alistGet {α β : Type} [DecidableEq α] : List (α × β) → α → Option β
  | [], _ => none
  | (k, v) :: rest, k1 => if k = k1 then some v else alistGet rest k1

/-- Association list insertion, the model of hash map `insert`: the first
binding of the key is replaced in place, a missing key is appended. -/
def alistInsert {α β : Type} [DecidableEq α] : List (α × β) → α → β → List (α × β)
  | [], k, v => [(k, v)]
  | (k0, v0) :: rest, k, v =>
      if k0 = k then (k, v) :: rest else (k0, v0) :: alistInsert rest k v

/-- Association list removal, the model of hash map `remove`. -/
def alistRemove {α β : Type} [DecidableEq α] (l : List (α × β)) (k : α) : List (α × β) :=
  l.filter (fun e => decide (e.1 ≠ k))

/-- Set-like insertion into a listener list, the model of hash set `insert`. -/
def setInsert {α : Type} [DecidableEq α] (l : List α) (x : α) : List α :=
  if x ∈ l then l else l ++ [x]

/-- Set-like removal from a listener list, the model of hash set `remove`. -/
def setRemove {α : Type} [DecidableEq α] (l : List α) (x : α) : List α :=
  l.filter (fun y => decide (y ≠ x))

/-- The three pixel-grid views: stored payloads plus the abstract per-chunk
delta produced by the change tracking of the external library. -/
structure WorldModel where
  data : List (ChunkCoord × ChunkData)
  chunk_delta : ChunkCoord → Option ChunkDelta

def WorldModel.get_chunk_data (m : WorldModel) (c : ChunkCoord) : Option ChunkData :=
  alistGet m.data c

def WorldModel.apply_chunk_data (m : WorldModel) (c : ChunkCoord) (d : ChunkData) : WorldModel :=
  { m with data := alistInsert m.data c d }

def WorldModel.apply_chunk_delta (m : WorldModel) (d : ChunkDelta) : WorldModel :=
  { m with data := alistInsert m.data d.chunk_coord (d.patch (alistGet m.data d.chunk_coord)) }

def WorldModel.forget_chunk (m : WorldModel) (c : ChunkCoord) : WorldModel :=
  { m with data := alistRemove m.data c }

def WorldModel.get_chunk_delta (m : WorldModel) (c : ChunkCoord) (_reset : Bool) :
    Option ChunkDelta :=
  m.chunk_delta c

def WorldModel.reset (_m : WorldModel) : WorldModel :=
  { data := [], chunk_delta := fun _ => none }

inductive Destination where
  | Host
  | Peer (p : PeerId)
  | Broadcast
deriving DecidableEq

inductive Reliability where
  | Reliable
deriving DecidableEq

/-- The closed wire vocabulary of `WorldNetMessage`. -/
inductive WorldNetMessage where
  | RequestAuthority (chunk : ChunkCoord) (priority : Nat) (can_wait : Bool)
  | AskForAuthority (chunk : ChunkCoord) (priority : Nat)
  | LoseAuthority (chunk : ChunkCoord) (new_priority : Nat) (new_authority : PeerId)
  | ChangePriority (chunk : ChunkCoord) (priority : Nat)
  | GotAuthority (chunk : ChunkCoord) (chunk_data : Option ChunkData) (priority : Nat)
  | RelinquishAuthority (chunk : ChunkCoord) (chunk_data : Option ChunkData) (world_num : Int)
  | UpdateStorage (chunk : ChunkCoord) (chunk_data : Option ChunkData) (world_num : Int)
  | AuthorityAlreadyTaken (chunk : ChunkCoord) (authority : PeerId)
  | ListenRequest (chunk : ChunkCoord)
  | ListenStopRequest (chunk : ChunkCoord)
  | UnloadChunk (chunk : ChunkCoord)
  | ListenInitialResponse (chunk : ChunkCoord) (chunk_data : Option ChunkData) (priority : Nat)
  | ListenUpdate (delta : ChunkDelta) (priority : Nat) (take_auth : Bool)
  | ChunkPacket (chunkpacket : List (ChunkDelta × Nat))
  | ListenAuthorityRelinquished (chunk : ChunkCoord)
  | GetAuthorityFrom (chunk : ChunkCoord) (current_authority : PeerId)
  | RequestAuthorityTransfer (chunk : ChunkCoord)
  | TransferOk (chunk : ChunkCoord) (chunk_data : Option ChunkData) (listeners : List PeerId)
  | TransferFailed (chunk : ChunkCoord)
  | NotifyNewAuthority (chunk : ChunkCoord)

/-- Per-chunk state machine node, local to this peer. -/
inductive ChunkState where
  | RequestAuthority (priority : Nat) (can_wait : Bool)
  | WaitingForAuthority
  | Listening (authority : PeerId) (priority : Nat)
  | Authority (listeners : List PeerId) (priority : Nat)
      (new_authority : Option (PeerId × Nat)) (stop_sending : Bool)
  | UnloadPending
  | Transfer
  | WantToGetAuth (authority : PeerId) (auth_priority : Nat) (my_priority : Nat)
deriving DecidableEq

def ChunkState.authority (priority : Nat) : ChunkState :=
  ChunkState.Authority [] priority none false

structure MessageRequest where
  reliability : Reliability
  dst : Destination
  msg : WorldNetMessage

/-- The world manager state (`WorldManager` fields; the save-state handle is
external and only read at construction / written at drop, so it is omitted). -/
structure WorldManager where
  nice_terraforming : Bool
  is_host : Bool
  my_pos : Int × Int
  cam_pos : Int × Int
  is_notplayer : Bool
  my_peer_id : PeerId
  inbound_model : WorldModel
  outbound_model : WorldModel
  chunk_storage : List (ChunkCoord × ChunkData)
  authority_map : List (ChunkCoord × (PeerId × Nat))
  chunk_state : List (ChunkCoord × ChunkState)
  emitted_messages : List MessageRequest
  current_update : Nat
  chunk_last_update : List (ChunkCoord × Nat)
  last_request_priority : List (ChunkCoord × Nat)
  world_num : Int
  durabilities : List (Nat × (Nat × Nat))

/-- Append one reliable message request to the outbound queue. -/
def pushMsg (s : WorldManager) (dst : Destination) (msg : WorldNetMessage) : WorldManager :=
  { s with emitted_messages := s.emitted_messages ++ [⟨Reliability.Reliable, dst, msg⟩] }

/-- Fuel-exhausted emission: the message is queued without inline handling.
Fuel only bounds the depth of the self-addressed short-circuit recursion of
`emit_msg`; every theorem below either holds for all fuel or supplies enough. -/
def pushOnly (s : WorldManager) (dst : Destination) (msg : WorldNetMessage) : WorldManager :=
  pushMsg s dst msg

/-- The `emit_msg` short-circuit, parameterized by the continuation used for
inline handling of self-addressed and broadcast messages. -/
def emit_msg_with (handle : WorldManager → PeerId → WorldNetMessage → WorldManager)
    (s : WorldManager) (dst : Destination) (msg : WorldNetMessage) : WorldManager :=
  if (s.is_host = true ∧ dst = Destination.Host) ∨ dst = Destination.Peer s.my_peer_id then
    handle s s.my_peer_id msg
  else
    let s1 := if dst = Destination.Broadcast then handle s s.my_peer_id msg else s
    pushMsg s1 dst msg

/-- Drain a local emit queue through an emit continuation, in order. -/
def emitMsgsWith (emit : WorldManager → Destination → WorldNetMessage → WorldManager)
    (s : WorldManager) (l : List (Destination × WorldNetMessage)) : WorldManager :=
  l.foldl (fun s0 e => emit s0 e.1 e.2) s

/-- `WorldManager::emit_got_authority`: record the new owner, piggyback the
stored payload only when the owner changed or none was recorded, and send
`GotAuthority` to the new owner. -/
def emit_got_authority_with (emit : WorldManager → Destination → WorldNetMessage → WorldManager)
    (s : WorldManager) (chunk : ChunkCoord) (source : PeerId) (priority : Nat) : WorldManager :=
  let auth := alistGet s.authority_map chunk
  let s1 := { s with authority_map := alistInsert s.authority_map chunk (source, priority) }
  let chunk_data :=
    if (match auth with
        | some a => decide (a.1 ≠ source)
        | none => true) = true then
      alistGet s1.chunk_storage chunk
    else none
  emit s1 (Destination.Peer source) (WorldNetMessage.GotAuthority chunk chunk_data priority)

/-- `WorldManager::emit_transfer_authority`: record the new owner and ask it
to pull the chunk from the current authority. -/
def emit_transfer_authority_with
    (emit : WorldManager → Destination → WorldNetMessage → WorldManager)
    (s : WorldManager) (chunk : ChunkCoord) (source : PeerId) (priority : Nat)
    (current_authority : PeerId) : WorldManager :=
  let s1 := { s with authority_map := alistInsert s.authority_map chunk (source, priority) }
  emit s1 (Destination.Peer source)
    (WorldNetMessage.GetAuthorityFrom chunk current_authority)

/-- The `ChunkPacket` loop of `handle_msg`: per item, a listener tracks the
priority, a `WantToGetAuth` contender outranked by the incoming priority
falls back to `Listening`, and any other state skips the item (`continue`);
the first two arms fall through to `apply_chunk_delta` on the inbound model
whether or not the contender changed state. -/
def handle_chunk_packet (s : WorldManager) :
    List (ChunkDelta × Nat) → WorldManager
  | [] => s
  | (delta, priority) :: rest =>
      match alistGet s.chunk_state delta.chunk_coord with
      | some (ChunkState.Listening a _pri) =>
          handle_chunk_packet
            { s with
              chunk_state := alistInsert s.chunk_state delta.chunk_coord
                (ChunkState.Listening a priority),
              inbound_model := s.inbound_model.apply_chunk_delta delta } rest
      | some (ChunkState.WantToGetAuth authority _auth_pri my_pri) =>
          if priority ≤ my_pri then
            handle_chunk_packet
              { s with
                chunk_state := alistInsert s.chunk_state delta.chunk_coord
                  (ChunkState.Listening authority priority),
                inbound_model := s.inbound_model.apply_chunk_delta delta } rest
          else
            handle_chunk_packet
              { s with inbound_model := s.inbound_model.apply_chunk_delta delta } rest
      | _ => handle_chunk_packet s rest

/-- `WorldManager::handle_msg`, one message, with emissions routed through
the given continuation.  Each arm follows the source order of state writes
and `emit_msg` calls. -/
def handle_msg_core (emit : WorldManager → Destination → WorldNetMessage → WorldManager)
    (s : WorldManager) (source : PeerId) (msg : WorldNetMessage) : WorldManager :=
  match msg with
  | WorldNetMessage.RequestAuthority chunk priority can_wait =>
      if s.is_host = true then
        match alistGet s.authority_map chunk with
        | some (authority, priority_state) =>
            if source = authority then
              emit_got_authority_with emit s chunk source priority
            else if priority_state > priority ∧ can_wait = false then
              emit_transfer_authority_with emit s chunk source priority authority
            else
              emit s (Destination.Peer source)
                (WorldNetMessage.AuthorityAlreadyTaken chunk authority)
        | none => emit_got_authority_with emit s chunk source priority
      else s
  | WorldNetMessage.AskForAuthority chunk priority =>
      let s1 := emit s Destination.Host
        (WorldNetMessage.RequestAuthority chunk priority false)
      { s1 with chunk_state := alistInsert s1.chunk_state chunk ChunkState.WaitingForAuthority }
  | WorldNetMessage.LoseAuthority chunk new_priority new_authority =>
      match alistGet s.chunk_state chunk with
      | some (ChunkState.Authority listeners pri new_auth stop_sending) =>
          let new_auth2 :=
            if new_authority = s.my_peer_id then none
            else
              match new_auth with
              | some new =>
                  if new.2 > new_priority then some (new_authority, new_priority) else some new
              | none => some (new_authority, new_priority)
          { s with
            chunk_state := alistInsert s.chunk_state chunk
              (ChunkState.Authority listeners pri new_auth2 stop_sending) }
      | _ => s
  | WorldNetMessage.ChangePriority chunk priority =>
      if s.is_host = true then
        match alistGet s.authority_map chunk with
        | some (authority, _) =>
            if source = authority then
              { s with authority_map := alistInsert s.authority_map chunk (source, priority) }
            else s
        | none => s
      else s
  | WorldNetMessage.GotAuthority chunk chunk_data priority =>
      let s1 :=
        { s with
          chunk_state := alistInsert s.chunk_state chunk (ChunkState.authority priority),
          last_request_priority := alistRemove s.last_request_priority chunk }
      match chunk_data with
      | some cd =>
          { s1 with
            inbound_model := s1.inbound_model.apply_chunk_data chunk cd,
            outbound_model := s1.outbound_model.apply_chunk_data chunk cd }
      | none => s1
  | WorldNetMessage.UpdateStorage chunk chunk_data world_num =>
      if s.is_host = true then
        if world_num = s.world_num then
          match chunk_data with
          | some cd => { s with chunk_storage := alistInsert s.chunk_storage chunk cd }
          | none => s
        else s
      else s
  | WorldNetMessage.RelinquishAuthority chunk chunk_data world_num =>
      if s.is_host = true then
        if world_num = s.world_num then
          if (match alistGet s.authority_map chunk with
              | some st => decide (st.1 = source)
              | none => true) = true then
            let s1 := { s with authority_map := alistRemove s.authority_map chunk }
            let s2 :=
              match chunk_data with
              | some cd => { s1 with chunk_storage := alistInsert s1.chunk_storage chunk cd }
              | none => s1
            emit s2 Destination.Broadcast (WorldNetMessage.ListenAuthorityRelinquished chunk)
          else s
        else s
      else s
  | WorldNetMessage.UnloadChunk chunk =>
      { s with chunk_state := alistInsert s.chunk_state chunk ChunkState.UnloadPending }
  | WorldNetMessage.AuthorityAlreadyTaken chunk authority =>
      let s1 := emit s (Destination.Peer authority) (WorldNetMessage.ListenRequest chunk)
      { s1 with last_request_priority := alistRemove s1.last_request_priority chunk }
  | WorldNetMessage.ListenRequest chunk =>
      match alistGet s.chunk_state chunk with
      | some (ChunkState.Authority listeners priority new_auth stop_sending) =>
          let s1 :=
            { s with
              chunk_state := alistInsert s.chunk_state chunk
                (ChunkState.Authority (setInsert listeners source) priority new_auth
                  stop_sending) }
          let chunk_data := s1.outbound_model.get_chunk_data chunk
          emit s1 (Destination.Peer source)
            (WorldNetMessage.ListenInitialResponse chunk chunk_data priority)
      | _ =>
          emit s (Destination.Peer source) (WorldNetMessage.UnloadChunk chunk)
  | WorldNetMessage.ListenStopRequest chunk =>
      match alistGet s.chunk_state chunk with
      | some (ChunkState.Authority listeners priority new_auth stop_sending) =>
          { s with
            chunk_state := alistInsert s.chunk_state chunk
              (ChunkState.Authority (setRemove listeners source) priority new_auth
                stop_sending) }
      | _ => s
  | WorldNetMessage.ListenInitialResponse chunk chunk_data priority =>
      let s1 :=
        { s with
          chunk_state := alistInsert s.chunk_state chunk
            (ChunkState.Listening source priority) }
      match chunk_data with
      | some cd => { s1 with inbound_model := s1.inbound_model.apply_chunk_data chunk cd }
      | none => s1
  | WorldNetMessage.ListenUpdate delta priority take_auth =>
      match alistGet s.chunk_state delta.chunk_coord with
      | some (ChunkState.Listening a _pri) =>
          let s1 :=
            { s with
              chunk_state := alistInsert s.chunk_state delta.chunk_coord
                (ChunkState.Listening a priority) }
          let s2 :=
            if take_auth = true then
              emit s1 (Destination.Peer source)
                (WorldNetMessage.LoseAuthority delta.chunk_coord priority source)
            else s1
          { s2 with inbound_model := s2.inbound_model.apply_chunk_delta delta }
      | some (ChunkState.WantToGetAuth authority _auth_pri my_pri) =>
          let s2 :=
            if my_pri < priority then
              if take_auth = true then
                let s1 := emit s Destination.Host
                  (WorldNetMessage.RequestAuthority delta.chunk_coord my_pri false)
                { s1 with
                  chunk_state := alistInsert s1.chunk_state delta.chunk_coord
                    ChunkState.WaitingForAuthority }
              else s
            else
              { s with
                chunk_state := alistInsert s.chunk_state delta.chunk_coord
                  (ChunkState.Listening authority priority) }
          { s2 with inbound_model := s2.inbound_model.apply_chunk_delta delta }
      | _ =>
          if take_auth = true then
            let s1 := emit s (Destination.Peer source)
              (WorldNetMessage.LoseAuthority delta.chunk_coord priority source)
            { s1 with inbound_model := s1.inbound_model.apply_chunk_delta delta }
          else s
  | WorldNetMessage.ChunkPacket chunkpacket =>
      handle_chunk_packet s chunkpacket
  | WorldNetMessage.ListenAuthorityRelinquished chunk =>
      { s with chunk_state := alistInsert s.chunk_state chunk ChunkState.UnloadPending }
  | WorldNetMessage.GetAuthorityFrom chunk current_authority =>
      if alistGet s.chunk_state chunk ≠ some ChunkState.UnloadPending then
        let s1 := { s with chunk_state := alistInsert s.chunk_state chunk ChunkState.Transfer }
        emit s1 (Destination.Peer current_authority)
          (WorldNetMessage.RequestAuthorityTransfer chunk)
      else
        emit s Destination.Host
          (WorldNetMessage.RelinquishAuthority chunk none s.world_num)
  | WorldNetMessage.RequestAuthorityTransfer chunk =>
      match alistGet s.chunk_state chunk with
      | some (ChunkState.Authority listeners _pri _na _ss) =>
          let chunk_data := s.outbound_model.get_chunk_data chunk
          let s1 := emit s (Destination.Peer source)
            (WorldNetMessage.TransferOk chunk chunk_data listeners)
          let s2 :=
            { s1 with chunk_state := alistInsert s1.chunk_state chunk ChunkState.UnloadPending }
          let chunk_data2 := s2.outbound_model.get_chunk_data chunk
          emit s2 Destination.Host
            (WorldNetMessage.UpdateStorage chunk chunk_data2 s2.world_num)
      | _ =>
          emit s (Destination.Peer source) (WorldNetMessage.TransferFailed chunk)
  | WorldNetMessage.TransferOk chunk chunk_data listeners =>
      let s1 :=
        match chunk_data with
        | some cd =>
            { s with
              inbound_model := s.inbound_model.apply_chunk_data chunk cd,
              outbound_model := s.outbound_model.apply_chunk_data chunk cd }
        | none => s
      let s2 := emitMsgsWith emit s1
        (listeners.map (fun l => (Destination.Peer l, WorldNetMessage.NotifyNewAuthority chunk)))
      let pri := (alistGet s2.last_request_priority chunk).getD 0
      { s2 with
        chunk_state := alistInsert s2.chunk_state chunk
          (ChunkState.Authority listeners pri none false),
        last_request_priority := alistRemove s2.last_request_priority chunk }
  | WorldNetMessage.TransferFailed chunk =>
      let priority := (alistGet s.last_request_priority chunk).getD 255
      { s with
        chunk_state := alistInsert s.chunk_state chunk
          (ChunkState.RequestAuthority priority true) }
  | WorldNetMessage.NotifyNewAuthority chunk =>
      match alistGet s.chunk_state chunk with
      | some (ChunkState.Listening _a pri) =>
          { s with
            chunk_state := alistInsert s.chunk_state chunk (ChunkState.Listening source pri) }
      | _ => s

/-- `WorldManager::handle_msg`.  The fuel bounds the inline short-circuit
depth (self-addressed and broadcast messages are handled recursively); at
fuel 0 an inline-addressed message is queued instead. -/
def handle_msg : Nat → WorldManager → PeerId → WorldNetMessage → WorldManager
  | 0 => fun s source msg => handle_msg_core pushOnly s source msg
  | fuel + 1 => fun s source msg =>
      handle_msg_core (emit_msg_with (handle_msg fuel)) s source msg

/-- `WorldManager::emit_msg`: self-addressed messages (host to host, or to
the own peer id) are handled inline without hitting the bus, broadcasts are
handled inline and queued, anything else is queued. -/
def emit_msg (fuel : Nat) (s : WorldManager) (dst : Destination) (msg : WorldNetMessage) :
    WorldManager :=
  match fuel with
  | 0 => pushOnly s dst msg
  | fuel + 1 => emit_msg_with (handle_msg fuel) s dst msg

/-- `WorldManager::reset`: clear both models, the storage, the authority map,
the last-update map and the state table.  Everything else is untouched. -/
def reset (s : WorldManager) : WorldManager :=
  { s with
    inbound_model := s.inbound_model.reset,
    outbound_model := s.outbound_model.reset,
    chunk_storage := [],
    authority_map := [],
    chunk_last_update := [],
    chunk_state := [] }

/-- `WorldManager::chunk_updated_locally`: fold one locally updated chunk into
the state machine.  Returns the updated manager and the `(listener, priority)`
pairs the caller should forward the delta to as a plain `ChunkPacket`. -/
def chunk_updated_locally (fuel : Nat) (s : WorldManager) (chunk : ChunkCoord) (priority : Nat)
    (pos : List Int) : WorldManager × List (PeerId × Nat) :=
  let s :=
    if pos.length = 6 then
      let s :=
        { s with
          my_pos := (pos.getD 0 0, pos.getD 1 0),
          cam_pos := (pos.getD 2 0, pos.getD 3 0),
          is_notplayer := decide (pos.getD 4 0 = 1) }
      if s.world_num ≠ pos.getD 5 0 then reset { s with world_num := pos.getD 5 0 } else s
    else
      if s.world_num ≠ pos.getD 0 0 then reset { s with world_num := pos.getD 0 0 } else s
  let s :=
    match alistGet s.chunk_state chunk with
    | none =>
        { s with
          chunk_state := alistInsert s.chunk_state chunk
            (ChunkState.RequestAuthority priority true) }
    | some _ => s
  let s := { s with chunk_last_update := alistInsert s.chunk_last_update chunk s.current_update }
  match alistGet s.chunk_state chunk with
  | some (ChunkState.Listening authority pri) =>
      if pri > priority then
        let s :=
          { s with
            chunk_state := alistInsert s.chunk_state chunk
              (ChunkState.WantToGetAuth authority pri priority) }
        (emitMsgsWith (emit_msg fuel) s
          [(Destination.Peer authority,
            WorldNetMessage.LoseAuthority chunk priority s.my_peer_id)], [])
      else (s, [])
  | some (ChunkState.WantToGetAuth authority auth_pri my_pri) =>
      if my_pri ≠ priority then
        if auth_pri ≤ priority then
          ({ s with
             chunk_state := alistInsert s.chunk_state chunk
               (ChunkState.Listening authority auth_pri) }, [])
        else
          let s :=
            { s with
              chunk_state := alistInsert s.chunk_state chunk
                (ChunkState.WantToGetAuth authority auth_pri priority) }
          (emitMsgsWith (emit_msg fuel) s
            [(Destination.Peer authority,
              WorldNetMessage.LoseAuthority chunk priority s.my_peer_id)], [])
      else (s, [])
  | some (ChunkState.Authority listeners pri new_authority stop_sending) =>
      match s.outbound_model.get_chunk_delta chunk false with
      | none => (s, [])
      | some delta =>
          let q1 :=
            if pri ≠ priority then
              [(Destination.Host, WorldNetMessage.ChangePriority chunk priority)]
            else ([] : List (Destination × WorldNetMessage))
          let pri2 := if pri ≠ priority then priority else pri
          let res :
              Option (PeerId × Nat) × Bool × Option PeerId :=
            match new_authority with
            | some new =>
                if new.2 ≥ priority then (none, false, none)
                else (some new, stop_sending, some new.1)
            | none => (none, false, none)
          let newa1 := res.1
          let ss1 := res.2.1
          let new_auth := res.2.2
          let loopres :
              List (Destination × WorldNetMessage) × List (PeerId × Nat) × Bool :=
            if ss1 = false then
              listeners.foldl
                (fun acc l =>
                  if new_auth = some l then
                    (acc.1 ++ [(Destination.Peer l,
                        WorldNetMessage.ListenUpdate delta priority true)],
                     [], true)
                  else
                    (acc.1, acc.2.1 ++ [(l, priority)], acc.2.2))
                ([], [], false)
            else ([], [], false)
          let q2 := loopres.1
          let chunks_to_send := loopres.2.1
          let new_auth_got := loopres.2.2
          let ss2 := if new_auth_got = true ∧ new_auth.isSome = true then true else ss1
          let s :=
            { s with
              chunk_state := alistInsert s.chunk_state chunk
                (ChunkState.Authority listeners pri2 newa1 ss2) }
          (emitMsgsWith (emit_msg fuel) s (q1 ++ q2), chunks_to_send)
  | _ => (s, [])

/-- The `should_kill` predicate of `WorldManager::update`: decides whether a
chunk is far enough from the player and camera to unload. -/
def should_kill (my_pos cam_pos : Int × Int) (chx chy : Int) (is_notplayer : Bool) : Bool :=
  let x := my_pos.1
  let y := my_pos.2
  let cx := cam_pos.1
  let cy := cam_pos.2
  if 2 < (x - cx).natAbs ∨ 2 < (y - cy).natAbs then
    ! decide ((chx ≤ x + 2 ∧ x - 2 ≤ chx ∧ chy ≤ y + 2 ∧ y - 2 ≤ chy)
      ∨ (chx ≤ cx + 2 ∧ cx - 2 ≤ chx ∧ chy ≤ cy + 2 ∧ cy - 2 ≤ chy))
  else if is_notplayer = true then
    ! decide (chx ≤ x + 2 ∧ x - 2 ≤ chx ∧ chy ≤ y + 2 ∧ y - 2 ≤ chy)
  else
    ! decide (chx ≤ x + 3 ∧ x - 3 ≤ chx ∧ chy ≤ y + 3 ∧ y - 3 ≤ chy)

/-- The iteration pass of `WorldManager::update`: walk the state table in
order, rewrite each state in place, collect the emit queue and the
last-request-priority writes. -/
def update_pass (s : WorldManager) :
    List (ChunkCoord × ChunkState) × List (Destination × WorldNetMessage) ×
      List (ChunkCoord × Nat) :=
  s.chunk_state.foldl
    (fun acc e =>
      let chunk := e.1
      let states := acc.1
      let queue := acc.2.1
      let lrp := acc.2.2
      match e.2 with
      | ChunkState.RequestAuthority priority can_wait =>
          (states ++ [(chunk, ChunkState.WaitingForAuthority)],
           queue ++ [(Destination.Host,
             WorldNetMessage.RequestAuthority chunk priority can_wait)],
           alistInsert lrp chunk priority)
      | ChunkState.WaitingForAuthority =>
          if should_kill s.my_pos s.cam_pos chunk.1 chunk.2 s.is_notplayer = true then
            (states ++ [(chunk, ChunkState.UnloadPending)], queue, lrp)
          else (states ++ [e], queue, lrp)
      | ChunkState.Listening authority _pri =>
          if should_kill s.my_pos s.cam_pos chunk.1 chunk.2 s.is_notplayer = true then
            (states ++ [(chunk, ChunkState.UnloadPending)],
             queue ++ [(Destination.Peer authority,
               WorldNetMessage.ListenStopRequest chunk)],
             lrp)
          else (states ++ [e], queue, lrp)
      | ChunkState.Authority _listeners _pri new_authority _ss =>
          if should_kill s.my_pos s.cam_pos chunk.1 chunk.2 s.is_notplayer = true then
            (states ++ [(chunk, ChunkState.UnloadPending)],
             queue ++
               (match new_authority with
                | some new =>
                    [(Destination.Peer new.1,
                      WorldNetMessage.AskForAuthority chunk new.2)]
                | none => []) ++
               [(Destination.Host,
                 WorldNetMessage.RelinquishAuthority chunk
                   (s.outbound_model.get_chunk_data chunk) s.world_num)],
             lrp)
          else (states ++ [e], queue, lrp)
      | ChunkState.WantToGetAuth _a _ap _mp =>
          if should_kill s.my_pos s.cam_pos chunk.1 chunk.2 s.is_notplayer = true then
            (states ++ [(chunk, ChunkState.UnloadPending)], queue, lrp)
          else (states ++ [e], queue, lrp)
      | ChunkState.UnloadPending => (states ++ [e], queue, lrp)
      | ChunkState.Transfer => (states ++ [e], queue, lrp))
    ([], [], s.last_request_priority)

/-- `WorldManager::update` up to (excluding) the final retain: the pass over
the state table followed by the drain of the emit queue, whose self-addressed
and broadcast messages are handled inline. -/
def update_before_retain (fuel : Nat) (s : WorldManager) : WorldManager :=
  let p := update_pass s
  let s1 := { s with chunk_state := p.1, last_request_priority := p.2.2 }
  emitMsgsWith (emit_msg fuel) s1 p.2.1

/-- The final retain of `WorldManager::update`: drop every `UnloadPending`
entry and forget the dropped chunks in both models. -/
def retain_loaded (s : WorldManager) : WorldManager :=
  let removed := s.chunk_state.filter (fun e => decide (e.2 = ChunkState.UnloadPending))
  { s with
    chunk_state := s.chunk_state.filter (fun e => decide (e.2 ≠ ChunkState.UnloadPending)),
    inbound_model := removed.foldl (fun m e => m.forget_chunk e.1) s.inbound_model,
    outbound_model := removed.foldl (fun m e => m.forget_chunk e.1) s.outbound_model }

/-- `WorldManager::update`: the liveness pass, the drain, then the retain. -/
def update (fuel : Nat) (s : WorldManager) : WorldManager :=
  retain_loaded (update_before_retain fuel s)

/-- The Bresenham walk of `WorldManager::do_ray`.  The fuel argument is an
upper bound on the remaining steps (supplied as `dx + dy + 1` by `do_ray`,
which every terminating walk of the source respects); `scale` models the
`f32` multiply-then-truncate of the per-pixel energy cost, which is the only
floating-point computation on the path. -/
def do_ray_loop (s : WorldManager) (scale : Nat → Nat) (dx dy sx sy end_x end_y : Int)
    (d : Nat) :
    Nat → Int → Int → Int → Nat → ChunkCoord → Chunk → Option (Int × Int) →
      Option (Int × Int)
  | 0, _, _, _, _, _, _, _ => none
  | fuel + 1, x, y, err, ray, last_co, working_chunk, last_coord =>
      if x = end_x ∧ y = end_y then some (x, y)
      else
        let co : ChunkCoord := (Int.ediv x (CHUNK_SIZE : Int), Int.ediv y (CHUNK_SIZE : Int))
        let found : Option Chunk :=
          if co = last_co then some working_chunk
          else
            match s.outbound_model.get_chunk_data co with
            | some c => some (c.apply_to_chunk working_chunk)
            | none =>
                match s.outbound_model.get_chunk_data co with
                | some c => some (c.apply_to_chunk working_chunk)
                | none =>
                    match alistGet s.chunk_storage co with
                    | some c => some (c.apply_to_chunk working_chunk)
                    | none => none
        match found with
        | none => last_coord
        | some wc =>
            let icx := Int.emod x (CHUNK_SIZE : Int)
            let icy := Int.emod y (CHUNK_SIZE : Int)
            let px := icy.toNat * CHUNK_SIZE + icx.toNat
            let pixel := wc.pixel px
            let dur := alistGet s.durabilities pixel.material
            let blocked :=
              match dur with
              | some stats => decide (stats.1 > d ∨ ray < scale stats.2)
              | none => false
            if blocked = true then last_coord
            else
              let ray1 :=
                match dur with
                | some stats => ray - scale stats.2
                | none => ray
              let last_coord1 := some (x, y)
              let e2 := err
              let err1 := if e2 > -dx then err - dy else err
              let x1 := if e2 > -dx then x + sx else x
              let err2 := if e2 < dy then err1 + dx else err1
              let y1 := if e2 < dy then y + sy else y
              do_ray_loop s scale dx dy sx sy end_x end_y d fuel x1 y1 err2 ray1 co wc
                last_coord1

/-- `WorldManager::do_ray`: walk from `(x, y)` to `(end_x, end_y)`, spending
ray energy on durable pixels.  The initial chunk is looked up in the outbound
model, else the inbound model, else the host storage; the per-step lookup
follows the source literally, which checks the outbound model twice. -/
def do_ray (s : WorldManager) (scale : Nat → Nat) (x y end_x end_y : Int) (ray : Nat)
    (d : Nat) : Option (Int × Int) :=
  let dx : Int := (end_x - x).natAbs
  let dy : Int := (end_y - y).natAbs
  if dx = 0 ∧ dy = 0 then none
  else
    let sx : Int := if x < end_x then 1 else -1
    let sy : Int := if y < end_y then 1 else -1
    let err : Int := Int.tdiv (if dx > dy then dx else -dy) 2
    let last_co : ChunkCoord := (Int.ediv x (CHUNK_SIZE : Int), Int.ediv y (CHUNK_SIZE : Int))
    match (match s.outbound_model.get_chunk_data last_co with
           | some c => some c
           | none =>
               match s.inbound_model.get_chunk_data last_co with
               | some c => some c
               | none => alistGet s.chunk_storage last_co) with
    | none => none
    | some c =>
        let working_chunk := c.apply_to_chunk Chunk.default
        do_ray_loop s scale dx dy sx sy end_x end_y d ((dx + dy).toNat + 1) x y err ray
          last_co working_chunk none

/-- Empty world model, used by the concrete test states. -/
def emptyModel : WorldModel :=
  { data := [], chunk_delta := fun _ => none }

/-- A fresh non-host world manager, the base of the concrete test states. -/
def baseState : WorldManager :=
  { nice_terraforming := true, is_host := false, my_pos := (0, 0), cam_pos := (0, 0),
    is_notplayer := false, my_peer_id := 0,
    inbound_model := emptyModel, outbound_model := emptyModel,
    chunk_storage := [], authority_map := [], chunk_state := [], emitted_messages := [],
    current_update := 0, chunk_last_update := [], last_request_priority := [],
    world_num := 0, durabilities := [] }

/-- Concrete chunk payload of material 1. -/
def cdA : ChunkData := ⟨fun _ => ⟨1⟩⟩

/-- Concrete chunk payload of material 2. -/
def cdB : ChunkData := ⟨fun _ => ⟨2⟩⟩

/-- Concrete manager for the raycast walk: the outbound model holds chunk
`(0, 0)`, the inbound model holds chunk `(1, 0)`, the storage is empty. -/
def rayState : WorldManager :=
  { baseState with
    inbound_model := { data := [(((1 : Int), (0 : Int)), cdB)], chunk_delta := fun _ => none },
    outbound_model := { data := [(((0 : Int), (0 : Int)), cdA)], chunk_delta := fun _ => none } }

/-- Concrete host manager whose chunk `(0, 0)` is owned by peer 7 at
priority 5. -/
def hostOwner7 : WorldManager :=
  { baseState with
    is_host := true,
    authority_map := [(((0 : Int), (0 : Int)), ((7 : PeerId), 5))] }

/-- Concrete host manager whose chunk `(0, 0)` is owned by peer 3 at
priority 5 while the storage also holds data for it. -/
def hostOwner3 : WorldManager :=
  { baseState with
    is_host := true,
    authority_map := [(((0 : Int), (0 : Int)), ((3 : PeerId), 5))],
    chunk_storage := [(((0 : Int), (0 : Int)), cdA)] }

/-- Concrete peer 3 holding authority over chunk `(0, 0)` with listeners
5 and 6 and outbound data for the chunk. -/
def authority56 : WorldManager :=
  { baseState with
    my_peer_id := 3,
    chunk_state := [(((0 : Int), (0 : Int)), ChunkState.Authority [5, 6] 2 none false)],
    outbound_model := { data := [(((0 : Int), (0 : Int)), cdA)], chunk_delta := fun _ => none } }

/-- Concrete peer 3 that remembered request priority 42 for chunk `(0, 0)`. -/
def newOwner42 : WorldManager :=
  { baseState with
    my_peer_id := 3,
    last_request_priority := [(((0 : Int), (0 : Int)), 42)] }

/-- Concrete peer 9 listening to authority 4 at priority 10 on chunk
`(0, 0)`. -/
def listener4 : WorldManager :=
  { baseState with
    my_peer_id := 9,
    chunk_state := [(((0 : Int), (0 : Int)), ChunkState.Listening 4 10)] }

/-- Concrete peer 9 contending against authority 4 (priority 10) at its own
priority 7 on chunk `(0, 0)`. -/
def contender7 : WorldManager :=
  { baseState with
    my_peer_id := 9,
    chunk_state := [(((0 : Int), (0 : Int)), ChunkState.WantToGetAuth 4 10 7)] }

/-- Concrete chunk delta for chunk `(0, 0)`. -/
def dlt0 : ChunkDelta := ⟨((0 : Int), (0 : Int)), fun _ => cdA⟩

/-- Concrete manager far from chunks `(0, 0)` and `(1, 1)`, with an
`UnloadPending` tombstone, a pending `Transfer`, and inbound data for the
tombstoned chunk. -/
def unloadMix : WorldManager :=
  { baseState with
    my_pos := (100, 100), cam_pos := (100, 100),
    chunk_state := [(((0 : Int), (0 : Int)), ChunkState.UnloadPending),
                    (((1 : Int), (1 : Int)), ChunkState.Transfer)],
    inbound_model := { data := [(((0 : Int), (0 : Int)), cdA)], chunk_delta := fun _ => none } }

/-- Variant of `rayState` where the second chunk sits in the host storage
instead of the inbound model. -/
def rayStateStorage : WorldManager :=
  { baseState with
    chunk_storage := [(((1 : Int), (0 : Int)), cdB)],
    outbound_model := { data := [(((0 : Int), (0 : Int)), cdA)], chunk_delta := fun _ => none } }

/-! Association list lemmas. -/

theorem alistGet_insert_self {α β : Type} [DecidableEq α] (l : List (α × β)) (k : α) (v : β) :
    alistGet (alistInsert l k v) k = some v := by
  induction l with
  | nil => simp [alistInsert, alistGet]
  | cons e rest ih =>
      obtain ⟨k0, v0⟩ := e
      by_cases h : k0 = k
      · simp [alistInsert, alistGet, h]
      · simp [alistInsert, alistGet, h, ih]

theorem alistGet_mem {α β : Type} [DecidableEq α] (l : List (α × β)) (k : α) (v : β)
    (h : alistGet l k = some v) : (k, v) ∈ l := by
  induction l with
  | nil => simp [alistGet] at h
  | cons e rest ih =>
      obtain ⟨k0, v0⟩ := e
      by_cases hk : k0 = k
      · simp [alistGet, hk] at h
        simp [hk, h]
      · simp [alistGet, hk] at h
        exact List.mem_cons_of_mem _ (ih h)

theorem alistGet_filter_some {α β : Type} [DecidableEq α] (p : α × β → Bool)
    (l : List (α × β)) (k : α) (v : β)
    (h : alistGet (l.filter p) k = some v) : p (k, v) = true := by
  induction l with
  | nil => simp [alistGet] at h
  | cons e rest ih =>
      obtain ⟨k0, v0⟩ := e
      by_cases hp : p (k0, v0) = true
      · rw [List.filter_cons_of_pos hp] at h
        by_cases hk : k0 = k
        · simp [alistGet, hk] at h
          rw [← hk, ← h]
          exact hp
        · simp [alistGet, hk] at h
          exact ih h
      · rw [List.filter_cons_of_neg (by simpa using hp)] at h
        exact ih h

theorem alistGet_filter_of_get {α β : Type} [DecidableEq α] (p : α × β → Bool)
    (l : List (α × β)) (k : α) (v : β)
    (hget : alistGet l k = some v) (hp : p (k, v) = true) :
    alistGet (l.filter p) k = some v := by
  induction l with
  | nil => simp [alistGet] at hget
  | cons e rest ih =>
      obtain ⟨k0, v0⟩ := e
      by_cases hk : k0 = k
      · simp [alistGet, hk] at hget
        subst hk
        subst hget
        rw [List.filter_cons_of_pos hp]
        simp [alistGet]
      · simp [alistGet, hk] at hget
        by_cases hp0 : p (k0, v0) = true
        · rw [List.filter_cons_of_pos hp0]
          simp [alistGet, hk]
          exact ih hget
        · rw [List.filter_cons_of_neg (by simpa using hp0)]
          exact ih hget

theorem alistGet_remove_self {α β : Type} [DecidableEq α] (l : List (α × β)) (k : α) :
    alistGet (alistRemove l k) k = none := by
  induction l with
  | nil => simp [alistRemove, alistGet]
  | cons e rest ih =>
      obtain ⟨k0, v0⟩ := e
      by_cases hk : k0 = k
      · rw [alistRemove, List.filter_cons_of_neg (by simp [hk])]
        simpa [alistRemove] using ih
      · rw [alistRemove, List.filter_cons_of_pos (by simp [hk])]
        have := ih
        rw [alistRemove] at this
        simpa [alistGet, hk] using this

theorem alistGet_remove_none {α β : Type} [DecidableEq α] (l : List (α × β)) (c k : α)
    (h : alistGet l k = none) : alistGet (alistRemove l c) k = none := by
  induction l with
  | nil => simp [alistRemove, alistGet]
  | cons e rest ih =>
      obtain ⟨k0, v0⟩ := e
      by_cases hk : k0 = k
      · simp [alistGet, hk] at h
      · simp [alistGet, hk] at h
        by_cases hc : k0 = c
        · rw [alistRemove, List.filter_cons_of_neg (by simp [hc])]
          simpa [alistRemove] using ih h
        · rw [alistRemove, List.filter_cons_of_pos (by simp [hc])]
          have := ih h
          rw [alistRemove] at this
          simpa [alistGet, hk] using this

/-! Lemmas about folding `forget_chunk` over the removed entries. -/

theorem forget_fold_none (l : List (ChunkCoord × ChunkState)) (k : ChunkCoord) :
    ∀ m : WorldModel, alistGet m.data k = none →
    alistGet ((l.foldl (fun m0 e => m0.forget_chunk e.1) m)).data k = none := by
  induction l with
  | nil => intro m h; simpa using h
  | cons e rest ih =>
      intro m h
      exact ih _ (alistGet_remove_none _ _ _ h)

theorem forget_fold_mem (l : List (ChunkCoord × ChunkState)) (k : ChunkCoord)
    (st : ChunkState) :
    ∀ m : WorldModel, (k, st) ∈ l →
    alistGet ((l.foldl (fun m0 e => m0.forget_chunk e.1) m)).data k = none := by
  induction l with
  | nil => intro m h; simp at h
  | cons e rest ih =>
      intro m h
      rcases List.mem_cons.mp h with he | hrest
      · subst he
        exact forget_fold_none rest k _ (alistGet_remove_self _ _)
      · exact ih _ hrest

/-! Emission lemmas: a message destined for a plain peer is queued, never
handled inline. -/

theorem pushOnly_eq (s : WorldManager) (d : Destination) (m : WorldNetMessage) :
    pushOnly s d m = pushMsg s d m := rfl

theorem emit_msg_with_peer (h : WorldManager → PeerId → WorldNetMessage → WorldManager)
    (s : WorldManager) (p : PeerId) (m : WorldNetMessage) (hp : p ≠ s.my_peer_id) :
    emit_msg_with h s (Destination.Peer p) m = pushMsg s (Destination.Peer p) m := by
  simp [emit_msg_with, hp]

theorem emit_msg_peer (fuel : Nat) (s : WorldManager) (p : PeerId) (m : WorldNetMessage)
    (hp : p ≠ s.my_peer_id) :
    emit_msg fuel s (Destination.Peer p) m = pushMsg s (Destination.Peer p) m := by
  cases fuel with
  | zero => rfl
  | succ f => exact emit_msg_with_peer _ _ _ _ hp

theorem emitMsgsWith_emit_peers (fuel : Nat) (msgs : List (Destination × WorldNetMessage)) :
    ∀ s : WorldManager,
    (∀ e ∈ msgs, ∃ p, e.1 = Destination.Peer p ∧ p ≠ s.my_peer_id) →
    emitMsgsWith (emit_msg fuel) s msgs =
      { s with
        emitted_messages := s.emitted_messages ++
          msgs.map (fun e => ⟨Reliability.Reliable, e.1, e.2⟩) } := by
  induction msgs with
  | nil => intro s _; simp [emitMsgsWith]
  | cons e rest ih =>
      intro s h
      obtain ⟨p, hp1, hp2⟩ := h e (List.mem_cons_self _ _)
      have step : emit_msg fuel s e.1 e.2 = pushMsg s e.1 e.2 := by
        rw [hp1]; exact emit_msg_peer _ _ _ _ hp2
      have hrest : ∀ e0 ∈ rest,
          ∃ p, e0.1 = Destination.Peer p ∧ p ≠ (pushMsg s e.1 e.2).my_peer_id := by
        intro e0 he0
        simpa [pushMsg] using h e0 (List.mem_cons_of_mem _ he0)
      calc emitMsgsWith (emit_msg fuel) s (e :: rest)
          = emitMsgsWith (emit_msg fuel) (emit_msg fuel s e.1 e.2) rest := by
            simp [emitMsgsWith, List.foldl_cons]
        _ = emitMsgsWith (emit_msg fuel) (pushMsg s e.1 e.2) rest := by rw [step]
        _ = _ := by
            rw [ih _ hrest]
            simp [pushMsg]

/-- The `LoseAuthority` handler never emits, so its behavior does not depend
on the fuel. -/
theorem handle_msg_loseAuthority (fuel : Nat) (s : WorldManager) (src : PeerId)
    (c : ChunkCoord) (np : Nat) (na : PeerId) :
    handle_msg fuel s src (WorldNetMessage.LoseAuthority c np na) =
      handle_msg_core pushOnly s src (WorldNetMessage.LoseAuthority c np na) := by
  cases fuel <;> rfl

/-- C10: `reset()` empties both models and the storage, authority, last-update
and state maps, and leaves every other field untouched; in particular the
`last_request_priority` map survives and keeps feeding the `TransferFailed`
fallback after a world-number change. -/
theorem reset_frame (s : WorldManager) :
    (reset s).inbound_model.data = [] ∧
    (reset s).outbound_model.data = [] ∧
    (reset s).chunk_storage = [] ∧
    (reset s).authority_map = [] ∧
    (reset s).chunk_last_update = [] ∧
    (reset s).chunk_state = [] ∧
    (reset s).last_request_priority = s.last_request_priority ∧
    (reset s).emitted_messages = s.emitted_messages ∧
    (reset s).current_update = s.current_update ∧
    (reset s).world_num = s.world_num ∧
    (reset s).durabilities = s.durabilities ∧
    (reset s).my_pos = s.my_pos ∧
    (reset s).cam_pos = s.cam_pos ∧
    (reset s).is_notplayer = s.is_notplayer ∧
    (reset s).is_host = s.is_host ∧
    (reset s).my_peer_id = s.my_peer_id ∧
    (reset s).nice_terraforming = s.nice_terraforming ∧
    (∀ (fuel : Nat) (src : PeerId) (chunk : ChunkCoord),
      alistGet (handle_msg fuel (reset s) src
          (WorldNetMessage.TransferFailed chunk)).chunk_state chunk =
        some (ChunkState.RequestAuthority
          ((alistGet s.last_request_priority chunk).getD 255) true)) := by
  refine ⟨rfl, rfl, rfl, rfl, rfl, rfl, rfl, rfl, rfl, rfl, rfl, rfl, rfl, rfl, rfl, rfl,
    rfl, ?_⟩
  intro fuel src chunk
  cases fuel <;>
    simp [handle_msg, handle_msg_core, reset, alistGet_insert_self]

/-- C6: `should_kill` keeps a chunk exactly when it lies within the
5-by-5 box around the player or the camera when the two are more than two
chunks apart on some axis, within the 5-by-5 player box for a non-player,
and within the 7-by-7 player box otherwise. -/
theorem should_kill_box (mp cp : Int × Int) (chx chy : Int) (np : Bool) :
    should_kill mp cp chx chy np = false ↔
      (if 2 < (mp.1 - cp.1).natAbs ∨ 2 < (mp.2 - cp.2).natAbs then
        ((chx - mp.1).natAbs ≤ 2 ∧ (chy - mp.2).natAbs ≤ 2) ∨
          ((chx - cp.1).natAbs ≤ 2 ∧ (chy - cp.2).natAbs ≤ 2)
      else if np = true then
        (chx - mp.1).natAbs ≤ 2 ∧ (chy - mp.2).natAbs ≤ 2
      else
        (chx - mp.1).natAbs ≤ 3 ∧ (chy - mp.2).natAbs ≤ 3) := by
  simp only [should_kill]
  split_ifs with h1 h2 <;>
    simp only [Bool.not_eq_eq_eq_not, Bool.not_false, decide_eq_true_eq] <;>
    constructor <;> intro h <;> omega

/-- C8: on the host, `UpdateStorage` and `RelinquishAuthority` carrying a
stale world number are silently dropped: the state is returned unchanged and
nothing is emitted. -/
theorem stale_world_num_silent_drop (fuel : Nat) (s : WorldManager) (src : PeerId)
    (chunk : ChunkCoord) (cd : Option ChunkData) (wn : Int)
    (hhost : s.is_host = true) (hwn : wn ≠ s.world_num) :
    handle_msg fuel s src (WorldNetMessage.UpdateStorage chunk cd wn) = s ∧
    handle_msg fuel s src (WorldNetMessage.RelinquishAuthority chunk cd wn) = s := by
  cases fuel <;>
    exact ⟨by simp [handle_msg, handle_msg_core, hhost, hwn],
           by simp [handle_msg, handle_msg_core, hhost, hwn]⟩

/-- Witness for C8 at a concrete host state and stale world number. -/
theorem stale_world_num_silent_drop_witness :
    ({ baseState with is_host := true } : WorldManager).is_host = true ∧
    (7 : Int) ≠ ({ baseState with is_host := true } : WorldManager).world_num ∧
    handle_msg 1 { baseState with is_host := true } 2
      (WorldNetMessage.UpdateStorage (0, 0) none 7) =
      { baseState with is_host := true } :=
  ⟨rfl, by decide,
    (stale_world_num_silent_drop 1 { baseState with is_host := true } 2 (0, 0) none 7
      rfl (by decide)).1⟩

/-- C2: with no pending contender recorded, two `LoseAuthority` messages from
distinct contenders `A` at priority `p1` and `B` at priority `p2 > p1`,
neither naming this peer, leave `new_authority = some (A, p1)` in either
arrival order. -/
theorem loseAuthority_order_independent (f1 f2 f3 f4 : Nat) (s : WorldManager)
    (chunk : ChunkCoord) (L : List PeerId) (pri : Nat) (ss : Bool)
    (A B : PeerId) (p1 p2 : Nat)
    (hstate : alistGet s.chunk_state chunk = some (ChunkState.Authority L pri none ss))
    (hA : A ≠ s.my_peer_id) (hB : B ≠ s.my_peer_id) (_hAB : A ≠ B) (hp : p1 < p2) :
    alistGet (handle_msg f2
        (handle_msg f1 s A (WorldNetMessage.LoseAuthority chunk p1 A)) B
        (WorldNetMessage.LoseAuthority chunk p2 B)).chunk_state chunk =
      some (ChunkState.Authority L pri (some (A, p1)) ss) ∧
    alistGet (handle_msg f4
        (handle_msg f3 s B (WorldNetMessage.LoseAuthority chunk p2 B)) A
        (WorldNetMessage.LoseAuthority chunk p1 A)).chunk_state chunk =
      some (ChunkState.Authority L pri (some (A, p1)) ss) := by
  have hngt : ¬ p1 > p2 := by omega
  constructor
  · have e1 : handle_msg f1 s A (WorldNetMessage.LoseAuthority chunk p1 A) =
        { s with
          chunk_state := alistInsert s.chunk_state chunk
            (ChunkState.Authority L pri (some (A, p1)) ss) } := by
      rw [handle_msg_loseAuthority]
      simp [handle_msg_core, hstate, hA]
    rw [e1, handle_msg_loseAuthority]
    simp [handle_msg_core, alistGet_insert_self, hB, hngt]
  · have e1 : handle_msg f3 s B (WorldNetMessage.LoseAuthority chunk p2 B) =
        { s with
          chunk_state := alistInsert s.chunk_state chunk
            (ChunkState.Authority L pri (some (B, p2)) ss) } := by
      rw [handle_msg_loseAuthority]
      simp [handle_msg_core, hstate, hB]
    rw [e1, handle_msg_loseAuthority]
    simp [handle_msg_core, alistGet_insert_self, hA, hp]

/-- Witness for C2 at a concrete authority state with contenders 1 and 2. -/
theorem loseAuthority_order_independent_witness :
    alistGet ({ baseState with
        chunk_state := [(((0 : Int), (0 : Int)),
          ChunkState.Authority [] 10 none false)] } : WorldManager).chunk_state (0, 0) =
      some (ChunkState.Authority [] 10 none false) ∧
    alistGet (handle_msg 1
        (handle_msg 1
          { baseState with
            chunk_state := [(((0 : Int), (0 : Int)),
              ChunkState.Authority [] 10 none false)] } 1
          (WorldNetMessage.LoseAuthority (0, 0) 3 1)) 2
        (WorldNetMessage.LoseAuthority (0, 0) 5 2)).chunk_state (0, 0) =
      some (ChunkState.Authority [] 10 (some (1, 3)) false) ∧
    alistGet (handle_msg 1
        (handle_msg 1
          { baseState with
            chunk_state := [(((0 : Int), (0 : Int)),
              ChunkState.Authority [] 10 none false)] } 2
          (WorldNetMessage.LoseAuthority (0, 0) 5 2)) 1
        (WorldNetMessage.LoseAuthority (0, 0) 3 1)).chunk_state (0, 0) =
      some (ChunkState.Authority [] 10 (some (1, 3)) false) := by
  refine ⟨by decide, ?_, ?_⟩
  · exact (loseAuthority_order_independent 1 1 1 1 _ (0, 0) [] 10 false 1 2 3 5
      (by decide) (by decide) (by decide) (by decide) (by decide)).1
  · exact (loseAuthority_order_independent 1 1 1 1 _ (0, 0) [] 10 false 1 2 3 5
      (by decide) (by decide) (by decide) (by decide) (by decide)).2

theorem emitMsgsWith_pushOnly (msgs : List (Destination × WorldNetMessage)) :
    ∀ s : WorldManager,
    emitMsgsWith pushOnly s msgs =
      { s with
        emitted_messages := s.emitted_messages ++
          msgs.map (fun e => ⟨Reliability.Reliable, e.1, e.2⟩) } := by
  induction msgs with
  | nil => intro s; simp [emitMsgsWith]
  | cons e rest ih =>
      intro s
      calc emitMsgsWith pushOnly s (e :: rest)
          = emitMsgsWith pushOnly (pushMsg s e.1 e.2) rest := by
            simp [emitMsgsWith, pushOnly, List.foldl_cons]
        _ = _ := by rw [ih]; simp [pushMsg]

theorem emitMsgsWith_with_peers
    (h : WorldManager → PeerId → WorldNetMessage → WorldManager)
    (msgs : List (Destination × WorldNetMessage)) :
    ∀ s : WorldManager,
    (∀ e ∈ msgs, ∃ p, e.1 = Destination.Peer p ∧ p ≠ s.my_peer_id) →
    emitMsgsWith (emit_msg_with h) s msgs =
      { s with
        emitted_messages := s.emitted_messages ++
          msgs.map (fun e => ⟨Reliability.Reliable, e.1, e.2⟩) } := by
  induction msgs with
  | nil => intro s _; simp [emitMsgsWith]
  | cons e rest ih =>
      intro s hcond
      obtain ⟨p, hp1, hp2⟩ := hcond e (List.mem_cons_self _ _)
      have step : emit_msg_with h s e.1 e.2 = pushMsg s e.1 e.2 := by
        rw [hp1]; exact emit_msg_with_peer _ _ _ _ hp2
      have hrest : ∀ e0 ∈ rest,
          ∃ p, e0.1 = Destination.Peer p ∧ p ≠ (pushMsg s e.1 e.2).my_peer_id := by
        intro e0 he0
        simpa [pushMsg] using hcond e0 (List.mem_cons_of_mem _ he0)
      calc emitMsgsWith (emit_msg_with h) s (e :: rest)
          = emitMsgsWith (emit_msg_with h) (emit_msg_with h s e.1 e.2) rest := by
            simp [emitMsgsWith, List.foldl_cons]
        _ = emitMsgsWith (emit_msg_with h) (pushMsg s e.1 e.2) rest := by rw [step]
        _ = _ := by rw [ih _ hrest]; simp [pushMsg]

theorem emit_msg_with_host (h : WorldManager → PeerId → WorldNetMessage → WorldManager)
    (s : WorldManager) (m : WorldNetMessage) (hh : s.is_host = false) :
    emit_msg_with h s Destination.Host m = pushMsg s Destination.Host m := by
  simp [emit_msg_with, hh]

theorem emit_msg_with_host_self
    (h : WorldManager → PeerId → WorldNetMessage → WorldManager)
    (s : WorldManager) (m : WorldNetMessage) (hh : s.is_host = true) :
    emit_msg_with h s Destination.Host m = h s s.my_peer_id m := by
  simp [emit_msg_with, hh]

/-- Handling `UpdateStorage` never emits anything. -/
theorem handle_updateStorage_emitted (fuel : Nat) (s : WorldManager) (src : PeerId)
    (c : ChunkCoord) (cd : Option ChunkData) (wn : Int) :
    (handle_msg fuel s src (WorldNetMessage.UpdateStorage c cd wn)).emitted_messages =
      s.emitted_messages := by
  cases fuel <;> cases cd <;>
    · simp only [handle_msg, handle_msg_core]
      split_ifs <;> rfl

/-- C1: host-side `RequestAuthority` dispatch fires exactly one of four
ordered rules: re-grant to the current owner; pull-transfer for an outranking
non-waiting requester; `AuthorityAlreadyTaken` with the map untouched;
fresh grant carrying the stored chunk data. -/
theorem requestAuthority_host_rules (fuel : Nat) (s : WorldManager) (source : PeerId)
    (chunk : ChunkCoord) (priority : Nat) (can_wait : Bool)
    (hhost : s.is_host = true) (hsrc : source ≠ s.my_peer_id) :
    (∀ authority priority_state,
      alistGet s.authority_map chunk = some (authority, priority_state) →
      source = authority →
      handle_msg fuel s source (WorldNetMessage.RequestAuthority chunk priority can_wait) =
        pushMsg
          { s with authority_map := alistInsert s.authority_map chunk (source, priority) }
          (Destination.Peer source) (WorldNetMessage.GotAuthority chunk none priority)) ∧
    (∀ authority priority_state,
      alistGet s.authority_map chunk = some (authority, priority_state) →
      source ≠ authority → priority < priority_state → can_wait = false →
      handle_msg fuel s source (WorldNetMessage.RequestAuthority chunk priority can_wait) =
        pushMsg
          { s with authority_map := alistInsert s.authority_map chunk (source, priority) }
          (Destination.Peer source) (WorldNetMessage.GetAuthorityFrom chunk authority)) ∧
    (∀ authority priority_state,
      alistGet s.authority_map chunk = some (authority, priority_state) →
      source ≠ authority → ¬(priority < priority_state ∧ can_wait = false) →
      handle_msg fuel s source (WorldNetMessage.RequestAuthority chunk priority can_wait) =
        pushMsg s (Destination.Peer source)
          (WorldNetMessage.AuthorityAlreadyTaken chunk authority)) ∧
    (alistGet s.authority_map chunk = none →
      handle_msg fuel s source (WorldNetMessage.RequestAuthority chunk priority can_wait) =
        pushMsg
          { s with authority_map := alistInsert s.authority_map chunk (source, priority) }
          (Destination.Peer source)
          (WorldNetMessage.GotAuthority chunk (alistGet s.chunk_storage chunk) priority)) := by
  refine ⟨?_, ?_, ?_, ?_⟩
  · intro authority priority_state hget hsa
    subst hsa
    cases fuel <;>
      simp [handle_msg, handle_msg_core, emit_got_authority_with, emit_msg_with, pushOnly,
        hhost, hget, hsrc]
  · intro authority priority_state hget hsa hpri hcw
    subst hcw
    cases fuel <;>
      simp [handle_msg, handle_msg_core, emit_transfer_authority_with, emit_msg_with,
        pushOnly, hhost, hget, hsa, hpri, hsrc]
  · intro authority priority_state hget hsa hno
    cases fuel <;>
      simp [handle_msg, handle_msg_core, emit_msg_with, pushOnly, hhost, hget, hsa, hno,
        hsrc]
  · intro hget
    cases fuel <;>
      simp [handle_msg, handle_msg_core, emit_got_authority_with, emit_msg_with, pushOnly,
        hhost, hget, hsrc]

/-- Witness for C1 at a concrete host state, exercising the pull-transfer
rule: owner 7 at priority 5, requester 3 at priority 2 with no waiting. -/
theorem requestAuthority_host_rules_witness :
    alistGet hostOwner7.authority_map (0, 0) = some (7, 5) ∧
    handle_msg 1 hostOwner7 3 (WorldNetMessage.RequestAuthority (0, 0) 2 false) =
      pushMsg
        { hostOwner7 with
          authority_map := alistInsert hostOwner7.authority_map (0, 0) (3, 2) }
        (Destination.Peer 3) (WorldNetMessage.GetAuthorityFrom (0, 0) 7) := by
  refine ⟨by decide, ?_⟩
  exact (requestAuthority_host_rules 1 hostOwner7 3 (0, 0) 2 false rfl (by decide)).2.1 7 5
    (by decide) (by decide) (by decide) rfl

/-- C4: a `RequestAuthority` from the recorded owner is re-granted with
`chunk_data = none` and the storage untouched; `emit_got_authority` carries
the stored payload exactly when the new owner differs from the recorded one
or none was recorded. -/
theorem regrant_data_policy (fuel : Nat) (s : WorldManager) (source : PeerId)
    (chunk : ChunkCoord) (priority : Nat)
    (hsrc : source ≠ s.my_peer_id) :
    (∀ (can_wait : Bool) authority priority_state, s.is_host = true →
      alistGet s.authority_map chunk = some (authority, priority_state) →
      source = authority →
      handle_msg fuel s source (WorldNetMessage.RequestAuthority chunk priority can_wait) =
        pushMsg
          { s with authority_map := alistInsert s.authority_map chunk (source, priority) }
          (Destination.Peer source) (WorldNetMessage.GotAuthority chunk none priority) ∧
      (handle_msg fuel s source
          (WorldNetMessage.RequestAuthority chunk priority can_wait)).chunk_storage =
        s.chunk_storage) ∧
    (∀ a, alistGet s.authority_map chunk = some a → a.1 ≠ source →
      emit_got_authority_with (emit_msg fuel) s chunk source priority =
        pushMsg
          { s with authority_map := alistInsert s.authority_map chunk (source, priority) }
          (Destination.Peer source)
          (WorldNetMessage.GotAuthority chunk (alistGet s.chunk_storage chunk) priority)) ∧
    (∀ a, alistGet s.authority_map chunk = some a → a.1 = source →
      emit_got_authority_with (emit_msg fuel) s chunk source priority =
        pushMsg
          { s with authority_map := alistInsert s.authority_map chunk (source, priority) }
          (Destination.Peer source) (WorldNetMessage.GotAuthority chunk none priority)) ∧
    (alistGet s.authority_map chunk = none →
      emit_got_authority_with (emit_msg fuel) s chunk source priority =
        pushMsg
          { s with authority_map := alistInsert s.authority_map chunk (source, priority) }
          (Destination.Peer source)
          (WorldNetMessage.GotAuthority chunk (alistGet s.chunk_storage chunk) priority)) := by
  refine ⟨?_, ?_, ?_, ?_⟩
  · intro can_wait authority priority_state hhost hget hsa
    have h := (requestAuthority_host_rules fuel s source chunk priority can_wait hhost
      hsrc).1 authority priority_state hget hsa
    exact ⟨h, by rw [h]; simp [pushMsg]⟩
  · intro a hget hne
    obtain ⟨a1, a2⟩ := a
    simp only [ne_eq] at hne
    simp only [emit_got_authority_with, hget]
    rw [emit_msg_peer]
    · simp [hne]
    · exact hsrc
  · intro a hget heq
    obtain ⟨a1, a2⟩ := a
    simp only [] at heq
    simp only [emit_got_authority_with, hget]
    rw [emit_msg_peer]
    · simp [heq]
    · exact hsrc
  · intro hget
    simp only [emit_got_authority_with, hget]
    rw [emit_msg_peer]
    · simp
    · exact hsrc

/-- Witness for C4: owner 3 re-requests while the storage holds data for the
chunk; the grant carries no data and the storage is unchanged. -/
theorem regrant_data_policy_witness :
    alistGet hostOwner3.authority_map (0, 0) = some (3, 5) ∧
    handle_msg 1 hostOwner3 3 (WorldNetMessage.RequestAuthority (0, 0) 9 true) =
      pushMsg
        { hostOwner3 with
          authority_map := alistInsert hostOwner3.authority_map (0, 0) (3, 9) }
        (Destination.Peer 3) (WorldNetMessage.GotAuthority (0, 0) none 9) ∧
    (handle_msg 1 hostOwner3 3
        (WorldNetMessage.RequestAuthority (0, 0) 9 true)).chunk_storage =
      hostOwner3.chunk_storage := by
  have h := (regrant_data_policy 1 hostOwner3 3 (0, 0) 9 (by decide)).1 true 3 5 rfl
    (by decide) rfl
  exact ⟨by decide, h.1, h.2⟩

/-- C9: a successful pull-transfer preserves the listener set exactly: the
current authority answers `RequestAuthorityTransfer` with `TransferOk`
carrying its listener set verbatim, and the new owner installs the received
set as its `Authority` listeners with priority `last_request_priority ?? 0`,
notifies every member, and applies the data to both models. -/
theorem transfer_round_trip (fuel : Nat) (s : WorldManager) (src : PeerId)
    (chunk : ChunkCoord) :
    (∀ (L : List PeerId) (pri : Nat) (na : Option (PeerId × Nat)) (ss : Bool),
      alistGet s.chunk_state chunk = some (ChunkState.Authority L pri na ss) →
      src ≠ s.my_peer_id →
      ∃ rest,
        (handle_msg fuel s src
            (WorldNetMessage.RequestAuthorityTransfer chunk)).emitted_messages =
          s.emitted_messages ++
            (⟨Reliability.Reliable, Destination.Peer src,
              WorldNetMessage.TransferOk chunk (s.outbound_model.get_chunk_data chunk) L⟩ ::
              rest)) ∧
    (∀ (cd : Option ChunkData) (L : List PeerId),
      (∀ l ∈ L, l ≠ s.my_peer_id) →
      alistGet (handle_msg fuel s src
          (WorldNetMessage.TransferOk chunk cd L)).chunk_state chunk =
        some (ChunkState.Authority L
          ((alistGet s.last_request_priority chunk).getD 0) none false) ∧
      (handle_msg fuel s src
          (WorldNetMessage.TransferOk chunk cd L)).emitted_messages =
        s.emitted_messages ++ L.map (fun l =>
          ⟨Reliability.Reliable, Destination.Peer l,
            WorldNetMessage.NotifyNewAuthority chunk⟩) ∧
      (handle_msg fuel s src
          (WorldNetMessage.TransferOk chunk cd L)).inbound_model =
        (match cd with
         | some c => s.inbound_model.apply_chunk_data chunk c
         | none => s.inbound_model) ∧
      (handle_msg fuel s src
          (WorldNetMessage.TransferOk chunk cd L)).outbound_model =
        (match cd with
         | some c => s.outbound_model.apply_chunk_data chunk c
         | none => s.outbound_model)) := by
  constructor
  · intro L pri na ss hstate hs
    cases fuel with
    | zero =>
        refine ⟨[⟨Reliability.Reliable, Destination.Host,
          WorldNetMessage.UpdateStorage chunk (s.outbound_model.get_chunk_data chunk)
            s.world_num⟩], ?_⟩
        simp [handle_msg, handle_msg_core, pushOnly, pushMsg, hstate]
    | succ f =>
        by_cases hh : s.is_host = true
        · refine ⟨[], ?_⟩
          simp only [handle_msg, handle_msg_core, hstate]
          rw [emit_msg_with_peer _ _ _ _ hs]
          rw [emit_msg_with_host_self]
          · rw [handle_updateStorage_emitted]
            simp [pushMsg]
          · exact hh
        · refine ⟨[⟨Reliability.Reliable, Destination.Host,
            WorldNetMessage.UpdateStorage chunk (s.outbound_model.get_chunk_data chunk)
              s.world_num⟩], ?_⟩
          simp only [handle_msg, handle_msg_core, hstate]
          rw [emit_msg_with_peer _ _ _ _ hs]
          rw [emit_msg_with_host]
          · simp [pushMsg]
          · simpa using hh
  · intro cd L hL
    have hmap : ∀ e ∈ L.map (fun l =>
        ((Destination.Peer l : Destination),
          WorldNetMessage.NotifyNewAuthority chunk)),
        ∃ p, e.1 = Destination.Peer p ∧ p ≠ s.my_peer_id := by
      intro e he
      simp only [List.mem_map] at he
      obtain ⟨l, hl, rfl⟩ := he
      exact ⟨l, rfl, hL l hl⟩
    cases fuel with
    | zero =>
        cases cd with
        | none =>
            simp only [handle_msg, handle_msg_core]
            rw [emitMsgsWith_pushOnly]
            simp [pushMsg, alistGet_insert_self]
        | some c =>
            simp only [handle_msg, handle_msg_core]
            rw [emitMsgsWith_pushOnly]
            simp [pushMsg, alistGet_insert_self]
    | succ f =>
        cases cd with
        | none =>
            simp only [handle_msg, handle_msg_core]
            rw [emitMsgsWith_with_peers _ _ _ hmap]
            simp [pushMsg, alistGet_insert_self]
        | some c =>
            simp only [handle_msg, handle_msg_core]
            rw [emitMsgsWith_with_peers _ _ _ (by
              intro e he
              simp only [List.mem_map] at he
              obtain ⟨l, hl, rfl⟩ := he
              exact ⟨l, rfl, hL l hl⟩)]
            simp [pushMsg, alistGet_insert_self]

/-- Witness for C9: authority 3 with listeners 5 and 6 answers a transfer
request from 8 with exactly that set; a new owner with remembered priority 42
installs the received set and notifies both members. -/
theorem transfer_round_trip_witness :
    alistGet authority56.chunk_state (0, 0) =
      some (ChunkState.Authority [5, 6] 2 none false) ∧
    (∃ rest, (handle_msg 1 authority56 8
        (WorldNetMessage.RequestAuthorityTransfer (0, 0))).emitted_messages =
      authority56.emitted_messages ++
        (⟨Reliability.Reliable, Destination.Peer 8,
          WorldNetMessage.TransferOk (0, 0)
            (authority56.outbound_model.get_chunk_data (0, 0)) [5, 6]⟩ :: rest)) ∧
    alistGet (handle_msg 1 newOwner42 8
        (WorldNetMessage.TransferOk (0, 0) none [5, 6])).chunk_state (0, 0) =
      some (ChunkState.Authority [5, 6] 42 none false) ∧
    (handle_msg 1 newOwner42 8
        (WorldNetMessage.TransferOk (0, 0) none [5, 6])).emitted_messages =
      newOwner42.emitted_messages ++ [5, 6].map (fun l =>
        ⟨Reliability.Reliable, Destination.Peer l,
          WorldNetMessage.NotifyNewAuthority (0, 0)⟩) := by
  have hB := (transfer_round_trip 1 newOwner42 8 (0, 0)).2 none [5, 6] (by decide)
  refine ⟨by decide, ?_, ?_, ?_⟩
  · exact (transfer_round_trip 1 authority56 8 (0, 0)).1 [5, 6] 2 none false (by decide)
      (by decide)
  · exact hB.1
  · exact hB.2.1

/-- C3: a listener that edits locally moves to `WantToGetAuth` and emits
`LoseAuthority` exactly when its edit priority is strictly below the
authority priority; a `WantToGetAuth` contender whose new local priority is
no longer strictly better reverts to `Listening`; and a `ChunkPacket`
carrying an authority priority less than or equal to the contender priority
(equality included) restores `Listening`. -/
theorem preemption_tie_break (fuel : Nat) (s : WorldManager) (chunk : ChunkCoord)
    (p : Nat) (pos : List Int)
    (hpos6 : pos.length ≠ 6) (hposw : pos.getD 0 0 = s.world_num) :
    (∀ auth pri,
      alistGet s.chunk_state chunk = some (ChunkState.Listening auth pri) →
      auth ≠ s.my_peer_id →
      ((p < pri →
        alistGet (chunk_updated_locally fuel s chunk p pos).1.chunk_state chunk =
          some (ChunkState.WantToGetAuth auth pri p) ∧
        (chunk_updated_locally fuel s chunk p pos).1.emitted_messages =
          s.emitted_messages ++ [⟨Reliability.Reliable, Destination.Peer auth,
            WorldNetMessage.LoseAuthority chunk p s.my_peer_id⟩]) ∧
       (pri ≤ p →
        alistGet (chunk_updated_locally fuel s chunk p pos).1.chunk_state chunk =
          some (ChunkState.Listening auth pri) ∧
        (chunk_updated_locally fuel s chunk p pos).1.emitted_messages =
          s.emitted_messages))) ∧
    (∀ auth apri mpri,
      alistGet s.chunk_state chunk = some (ChunkState.WantToGetAuth auth apri mpri) →
      p ≠ mpri → apri ≤ p →
      alistGet (chunk_updated_locally fuel s chunk p pos).1.chunk_state chunk =
        some (ChunkState.Listening auth apri) ∧
      (chunk_updated_locally fuel s chunk p pos).1.emitted_messages =
        s.emitted_messages) ∧
    (∀ (src : PeerId) (d : ChunkDelta) (pA : Nat) auth apri mpri,
      alistGet s.chunk_state d.chunk_coord =
        some (ChunkState.WantToGetAuth auth apri mpri) →
      pA ≤ mpri →
      alistGet (handle_msg fuel s src
          (WorldNetMessage.ChunkPacket [(d, pA)])).chunk_state d.chunk_coord =
        some (ChunkState.Listening auth pA)) := by
  refine ⟨?_, ?_, ?_⟩
  · intro auth pri hstate hne
    constructor
    · intro hlt
      simp only [chunk_updated_locally, hpos6, if_neg, hposw]
      simp only [ne_eq, not_true_eq_false, if_false, ite_self]
      simp only [hstate]
      simp only [gt_iff_lt, hlt, if_true, ite_true]
      rw [emitMsgsWith_emit_peers]
      · simp [pushMsg, alistGet_insert_self]
      · intro e he
        simp only [List.mem_singleton] at he
        subst he
        exact ⟨auth, rfl, hne⟩
    · intro hge
      have hnlt : ¬ (pri > p) := by omega
      simp only [chunk_updated_locally, hpos6, if_neg, hposw]
      simp only [ne_eq, not_true_eq_false, if_false, ite_self]
      simp only [hstate]
      simp only [gt_iff_lt, hnlt, if_false, ite_false]
      exact ⟨hstate, trivial⟩
  · intro auth apri mpri hstate hne hle
    have hne2 : mpri ≠ p := fun h => hne h.symm
    simp only [chunk_updated_locally, hpos6, if_neg, hposw]
    simp only [ne_eq, not_true_eq_false, if_false, ite_self]
    simp only [hstate]
    simp only [hne2, hle, if_true, ite_true, if_false, ite_false, not_false_eq_true]
    exact ⟨alistGet_insert_self _ _ _, trivial⟩
  · intro src d pA auth apri mpri hstate hle
    cases fuel <;>
      simp [handle_msg, handle_msg_core, handle_chunk_packet, hstate, hle,
        alistGet_insert_self]

/-- Witness for C3: listener 9 under authority 4 at priority 10 preempts at
local priority 7 but not at 10; contender at 7 gives up when its priority
moves to 12; an equal-priority `ChunkPacket` update restores `Listening`. -/
theorem preemption_tie_break_witness :
    alistGet listener4.chunk_state (0, 0) = some (ChunkState.Listening 4 10) ∧
    (alistGet (chunk_updated_locally 1 listener4 (0, 0) 7 [0]).1.chunk_state (0, 0) =
        some (ChunkState.WantToGetAuth 4 10 7) ∧
      (chunk_updated_locally 1 listener4 (0, 0) 7 [0]).1.emitted_messages =
        listener4.emitted_messages ++ [⟨Reliability.Reliable, Destination.Peer 4,
          WorldNetMessage.LoseAuthority (0, 0) 7 listener4.my_peer_id⟩]) ∧
    (alistGet (chunk_updated_locally 1 listener4 (0, 0) 10 [0]).1.chunk_state (0, 0) =
        some (ChunkState.Listening 4 10) ∧
      (chunk_updated_locally 1 listener4 (0, 0) 10 [0]).1.emitted_messages =
        listener4.emitted_messages) ∧
    (alistGet (chunk_updated_locally 1 contender7 (0, 0) 12 [0]).1.chunk_state (0, 0) =
        some (ChunkState.Listening 4 10) ∧
      (chunk_updated_locally 1 contender7 (0, 0) 12 [0]).1.emitted_messages =
        contender7.emitted_messages) ∧
    alistGet (handle_msg 1 contender7 4
        (WorldNetMessage.ChunkPacket [(dlt0, 7)])).chunk_state (0, 0) =
      some (ChunkState.Listening 4 7) := by
  refine ⟨by decide, ?_, ?_, ?_, ?_⟩
  · exact ((preemption_tie_break 1 listener4 (0, 0) 7 [0] (by decide) (by decide)).1
      4 10 (by decide) (by decide)).1 (by decide)
  · exact ((preemption_tie_break 1 listener4 (0, 0) 10 [0] (by decide) (by decide)).1
      4 10 (by decide) (by decide)).2 (by decide)
  · exact (preemption_tie_break 1 contender7 (0, 0) 12 [0] (by decide) (by decide)).2.1
      4 10 7 (by decide) (by decide) (by decide)
  · exact (preemption_tie_break 1 contender7 (0, 0) 0 [0] (by decide) (by decide)).2.2
      4 dlt0 7 4 10 7 (by decide) (by decide)

/-- C5: after `update()` the state table holds no `UnloadPending` entry,
including entries inserted inline while the emit queue was drained; every
coordinate that was `UnloadPending` at retain time is forgotten in both
models; and `Transfer` entries survive the retain untouched. -/
theorem update_clears_unload_pending (fuel : Nat) (s : WorldManager) (c : ChunkCoord) :
    (∀ st, alistGet (update fuel s).chunk_state c = some st →
      st ≠ ChunkState.UnloadPending) ∧
    (alistGet (update_before_retain fuel s).chunk_state c =
        some ChunkState.UnloadPending →
      alistGet (update fuel s).inbound_model.data c = none ∧
      alistGet (update fuel s).outbound_model.data c = none) ∧
    (∀ st, alistGet (update_before_retain fuel s).chunk_state c = some st →
      st ≠ ChunkState.UnloadPending →
      alistGet (update fuel s).chunk_state c = some st) := by
  refine ⟨?_, ?_, ?_⟩
  · intro st hget
    simp only [update, retain_loaded] at hget
    have := alistGet_filter_some _ _ _ _ hget
    simpa using this
  · intro hup
    have hmem : (c, ChunkState.UnloadPending) ∈
        (update_before_retain fuel s).chunk_state := alistGet_mem _ _ _ hup
    have hmem2 : (c, ChunkState.UnloadPending) ∈
        (update_before_retain fuel s).chunk_state.filter
          (fun e => decide (e.2 = ChunkState.UnloadPending)) :=
      List.mem_filter.mpr ⟨hmem, by simp⟩
    constructor
    · simp only [update, retain_loaded]
      exact forget_fold_mem _ _ _ _ hmem2
    · simp only [update, retain_loaded]
      exact forget_fold_mem _ _ _ _ hmem2
  · intro st hget hne
    simp only [update, retain_loaded]
    exact alistGet_filter_of_get _ _ _ _ hget (by simp [hne])

/-- Witness for C5: the tombstoned chunk `(0, 0)` disappears from the state
table and both models, while the `Transfer` entry at `(1, 1)` survives. -/
theorem update_clears_unload_pending_witness :
    alistGet (update_before_retain 1 unloadMix).chunk_state (0, 0) =
      some ChunkState.UnloadPending ∧
    (alistGet (update 1 unloadMix).inbound_model.data (0, 0) = none ∧
      alistGet (update 1 unloadMix).outbound_model.data (0, 0) = none) ∧
    alistGet (update 1 unloadMix).chunk_state (1, 1) = some ChunkState.Transfer := by
  refine ⟨by decide, ?_, ?_⟩
  · exact (update_clears_unload_pending 1 unloadMix (0, 0)).2.1 (by decide)
  · exact (update_clears_unload_pending 1 unloadMix (1, 1)).2.2 ChunkState.Transfer
      (by decide) (by decide)

/-- C7 (code bug): stepping from chunk `(0, 0)` into chunk `(1, 0)` at
`x = 128`, the per-step lookup of `do_ray` consults the outbound model twice
instead of falling back to the inbound model (unlike the initial-chunk
lookup), so a ray whose next chunk lives only in the inbound model stops at
`(127, 0)`; the identical ray whose next chunk lives in the host storage
walks on to `(129, 0)`. -/
theorem do_ray_step_skips_inbound :
    do_ray rayState (fun c => c) 127 0 129 0 1000 0 = some (127, 0) ∧
    rayState.inbound_model.get_chunk_data (1, 0) = some cdB ∧
    rayState.outbound_model.get_chunk_data (1, 0) = none ∧
    alistGet rayState.chunk_storage (1, 0) = none ∧
    do_ray rayStateStorage (fun c => c) 127 0 129 0 1000 0 = some (129, 0) := by
  exact ⟨rfl, rfl, rfl, rfl, rfl⟩

end NoitaWorld
